import Mathlib

/-!
Shallow embedding of the Reeborg-style robot-world core:
the action engine (src/core/engine/engine.ts), the Pyodide bridge's
shadow plan world (src/core/py/pyodide.ts), the goal evaluator and
orientation parsing (goal module), and the world-builder wall helpers
(onload module).

Modelling conventions:
- JS numbers that only ever hold integer values (coordinates, counts,
  grid sizes, pacing) are modelled as Int; Math.floor on them is the
  identity and Number.isFinite is always true.
- Optional JS arrays (world.objects, robot.inventory) are modelled as
  plain lists, identifying undefined with the empty array: the code
  normalizes undefined to [] before every use (ensureObjects, the
  inventory null-checks), so no behavior distinguishes them.
- Association-style JS records keyed by coordinate strings "x,y" are
  modelled as association lists keyed by Int pairs; the string encoding
  of integer pairs is injective so this is faithful for integer keys.
-/

namespace Reeborg

/-- Direction type from types.ts: `'N' | 'E' | 'S' | 'W'`. -/
inductive Direction
  | N
  | E
  | S
  | W
deriving DecidableEq, Repr

/-- Object kinds from objectKinds.ts. -/
inductive ObjectKind
  | token
  | carrot
  | apple
  | banana
  | leaf
  | dandelion
deriving DecidableEq, Repr

/-- The JS string name of an object kind, used by the `take` tie-break
comparison `a.kind < b.kind` in pickKindToTakeAt. -/
def kindStr : ObjectKind → String
  | .token => "token"
  | .carrot => "carrot"
  | .apple => "apple"
  | .banana => "banana"
  | .leaf => "leaf"
  | .dandelion => "dandelion"

/-- WallSegment from types.ts (goalMark is render-only and never read by
the engine, builder or evaluator; dir is always present on real walls). -/
structure WallSeg where
  x : Int
  y : Int
  dir : Direction
deriving DecidableEq, Repr

/-- ObjectStack from types.ts. The range/hidden fields are carried
untouched by every modelled operation and are omitted. -/
structure ObjStack where
  x : Int
  y : Int
  kind : ObjectKind
  count : Int
  goalMark : Bool := false
deriving DecidableEq, Repr

/-- RobotPose from types.ts; inventory is the FIFO list of taken kinds. -/
structure RobotPose where
  x : Int
  y : Int
  dir : Direction
  token : Int
  inventory : List ObjectKind
deriving DecidableEq, Repr

/-- Orientation codes accepted by the loader and the goal evaluator:
either a string or a number. -/
inductive OrientVal
  | str (s : String)
  | num (n : Int)
deriving DecidableEq, Repr

/-- A goal-object requirement value: a numeric literal or a string such
as "all" or "3". -/
inductive GoalVal
  | num (n : Int)
  | str (s : String)
deriving DecidableEq, Repr

/-- Textual wall directions used in goal.walls records. -/
inductive WallText
  | north
  | east
  | south
  | west
deriving DecidableEq, Repr

/-- The goal.position record: x, y and an optional orientation code. -/
structure GoalPos where
  x : Int
  y : Int
  orientation : Option OrientVal
deriving DecidableEq, Repr

/-- Goal from types.ts. Coordinate-string keys are modelled as Int pairs
and object-kind keys as ObjectKind (see file header). -/
structure Goal where
  objects : Option (List ((Int × Int) × List (ObjectKind × GoalVal)))
  walls : Option (List ((Int × Int) × List WallText))
  position : Option GoalPos
  possibleFinalPositions : Option (List (Int × Int × Option OrientVal))
deriving DecidableEq, Repr

/-- World from types.ts (description is never read by the core). -/
structure World where
  width : Int
  height : Int
  robot : RobotPose
  walls : List WallSeg
  objects : List ObjStack
  goal : Option Goal := none
deriving DecidableEq, Repr

/-- Action variants from types.ts. -/
inductive Action
  | move
  | turnLeft
  | put
  | take
  | buildWall
  | done
  | trace (message : String)
deriving DecidableEq, Repr

/-! ## Action engine (engine.ts) -/

/-- turnLeft from engine.ts: counter-clockwise N to W to S to E to N. -/
def turnLeftDir : Direction → Direction
  | .N => .W
  | .W => .S
  | .S => .E
  | .E => .N

/-- deltaFor from engine.ts: movement deltas per facing. -/
def deltaFor : Direction → Int × Int
  | .N => (0, 1)
  | .E => (1, 0)
  | .S => (0, -1)
  | .W => (-1, 0)

/-- hasWallAt from engine.ts: a wall record with exactly (x,y,dir). -/
def hasWallAt (w : World) (x y : Int) (dir : Direction) : Bool :=
  w.walls.any fun r => decide (r.x = x ∧ r.y = y ∧ r.dir = dir)

/-- isBlockedByWall from engine.ts: wall on the current edge or on the
opposing edge of the neighbor cell. -/
def isBlockedByWall (w : World) (x y : Int) (dir : Direction) : Bool :=
  match dir with
  | .N => hasWallAt w x y .N || hasWallAt w x (y + 1) .S
  | .E => hasWallAt w x y .E || hasWallAt w (x + 1) y .W
  | .S => hasWallAt w x y .S || hasWallAt w x (y - 1) .N
  | .W => hasWallAt w x y .W || hasWallAt w (x - 1) y .E

/-- decrementObjectOfKindAt from engine.ts: decrement the first stack
matching (x,y,kind) with positive count, deleting it when it reaches 0. -/
def decrementObjectOfKindAt (objs : List ObjStack) (x y : Int) (kind : ObjectKind) :
    List ObjStack :=
  match objs with
  | [] => []
  | o :: rest =>
    if o.x = x ∧ o.y = y ∧ o.kind = kind ∧ o.count > 0 then
      if o.count - 1 = 0 then rest else { o with count := o.count - 1 } :: rest
    else o :: decrementObjectOfKindAt rest x y kind

/-- incrementObjectKindAt from engine.ts: bump the first stack matching
(x,y,kind), else push a fresh count-1 stack at the end. -/
def incrementObjectKindAt (objs : List ObjStack) (x y : Int) (kind : ObjectKind) :
    List ObjStack :=
  match objs with
  | [] => [{ x := x, y := y, kind := kind, count := 1 }]
  | o :: rest =>
    if o.x = x ∧ o.y = y ∧ o.kind = kind then { o with count := o.count + 1 } :: rest
    else o :: incrementObjectKindAt rest x y kind

/-- The strict precedes relation of the take tie-break comparator in
pickKindToTakeAt: goal-marked stacks first, then ascending kind name. -/
def takeBefore (a b : ObjStack) : Bool :=
  if a.goalMark ≠ b.goalMark then a.goalMark
  else decide (kindStr a.kind < kindStr b.kind)

/-- Stable insertion into a sorted list: x goes after every element that
does not strictly come after it (matching JS stable sort on ties). -/
def sortedInsert (lt : α → α → Bool) (x : α) : List α → List α
  | [] => [x]
  | y :: ys => if lt x y then x :: y :: ys else y :: sortedInsert lt x ys

/-- Stable sort by a strict precedes relation, modelling the (stable)
Array.prototype.sort used by pickKindToTakeAt. -/
def stableSort (lt : α → α → Bool) (xs : List α) : List α :=
  xs.foldl (fun acc x => sortedInsert lt x acc) []

/-- pickKindToTakeAt from engine.ts: among positive stacks at (x,y),
sort by the tie-break comparator and return the first kind, if any. -/
def pickKindToTakeAt (objs : List ObjStack) (x y : Int) : Option ObjectKind :=
  match stableSort takeBefore
      ((objs.filter fun o => decide (o.x = x ∧ o.y = y)).filter fun o =>
        decide (o.count > 0)) with
  | [] => none
  | o :: _ => some o.kind

/-- The result of one transition handler: the world afterward, the ok
flag, and the optional failure reason. -/
structure StepResult where
  world : World
  ok : Bool
  reason : Option String
deriving DecidableEq, Repr

/-- The handlers table from engine.ts as one dispatch function: applies
one action's transition rule to the committed world. The `done` queue
flush is handled by `step` (it is a queue effect, not a world effect). -/
def applyAction (w : World) : Action → StepResult
  | .move =>
    let d := deltaFor w.robot.dir
    let nx := w.robot.x + d.1
    let ny := w.robot.y + d.2
    if nx < 1 ∨ ny < 1 ∨ nx > w.width ∨ ny > w.height then
      { world := w, ok := false, reason := some "out_of_bounds" }
    else if isBlockedByWall w w.robot.x w.robot.y w.robot.dir then
      { world := w, ok := false, reason := some "blocked_by_wall" }
    else
      { world := { w with robot := { w.robot with x := nx, y := ny } },
        ok := true, reason := none }
  | .buildWall =>
    if w.walls.any fun r =>
        decide (r.x = w.robot.x ∧ r.y = w.robot.y ∧ r.dir = w.robot.dir) then
      { world := w, ok := true, reason := none }
    else
      { world := { w with walls :=
          w.walls ++ [{ x := w.robot.x, y := w.robot.y, dir := w.robot.dir }] },
        ok := true, reason := none }
  | .done => { world := w, ok := true, reason := none }
  | .trace _ => { world := w, ok := true, reason := none }
  | .turnLeft =>
    { world := { w with robot := { w.robot with dir := turnLeftDir w.robot.dir } },
      ok := true, reason := none }
  | .take =>
    match pickKindToTakeAt w.objects w.robot.x w.robot.y with
    | none => { world := w, ok := false, reason := some "no_object_here" }
    | some kind =>
      { world := { w with
          objects := decrementObjectOfKindAt w.objects w.robot.x w.robot.y kind,
          robot := { w.robot with inventory := w.robot.inventory ++ [kind] } },
        ok := true, reason := none }
  | .put =>
    match w.robot.inventory with
    | [] => { world := w, ok := false, reason := some "no_item_to_put" }
    | kind :: restInv =>
      { world := { w with
          robot := { w.robot with inventory := restInv },
          objects := incrementObjectKindAt w.objects w.robot.x w.robot.y kind },
        ok := true, reason := none }

/-- TraceEvent from types.ts. -/
structure TraceEvent where
  step : Int
  action : Action
  before : World
  after : Option World
  ok : Bool
  reason : Option String
deriving DecidableEq, Repr

/-- The engine's mutable closure state: committed world, pending queue,
step counter, and executed-event history (head is the most recent). -/
structure EngineState where
  world : World
  queue : List Action
  stepCounter : Int
  executed : List TraceEvent
deriving DecidableEq, Repr

/-- step from engine.ts: pop the queue head, run its handler, snapshot
after on success, build and record the trace event. The `done` handler
clears the remaining queue. -/
def step (s : EngineState) : Option TraceEvent × EngineState :=
  match s.queue with
  | [] => (none, s)
  | action :: rest =>
    let res := applyAction s.world action
    let queueAfter := if action = .done then [] else rest
    let event : TraceEvent :=
      { step := s.stepCounter + 1, action := action, before := s.world,
        after := if res.ok then some res.world else none,
        ok := res.ok, reason := res.reason }
    (some event,
      { world := res.world, queue := queueAfter,
        stepCounter := s.stepCounter + 1, executed := event :: s.executed })

/-- stepPrev from engine.ts: pop the most recent event, restore its
before snapshot, re-queue its action at the front, floor-decrement the
counter; with empty history, return nothing and change nothing. -/
def stepPrev (s : EngineState) : Option World × EngineState :=
  match s.executed with
  | [] => (none, s)
  | last :: restExec =>
    (some last.before,
      { world := last.before, queue := last.action :: s.queue,
        stepCounter := max 0 (s.stepCounter - 1), executed := restExec })

/-! ## Pyodide bridge (pyodide.ts): shadow plan world, pacing, sensors.
The bridge duplicates the engine's helper functions textually; the
duplicates are embedded here again, inside namespace Py, so that the
refinement claim genuinely compares two definitions. -/

namespace Py

/-- turnLeft from pyodide.ts (textual duplicate of the engine's). -/
def turnLeft : Direction → Direction
  | .N => .W
  | .W => .S
  | .S => .E
  | .E => .N

/-- deltaFor from pyodide.ts. -/
def deltaFor : Direction → Int × Int
  | .N => (0, 1)
  | .E => (1, 0)
  | .S => (0, -1)
  | .W => (-1, 0)

/-- hasWallAt from pyodide.ts. -/
def hasWallAt (w : World) (x y : Int) (dir : Direction) : Bool :=
  w.walls.any fun r => decide (r.x = x ∧ r.y = y ∧ r.dir = dir)

/-- isBlockedByWall from pyodide.ts. -/
def isBlockedByWall (w : World) (x y : Int) (dir : Direction) : Bool :=
  match dir with
  | .N => hasWallAt w x y .N || hasWallAt w x (y + 1) .S
  | .E => hasWallAt w x y .E || hasWallAt w (x + 1) y .W
  | .S => hasWallAt w x y .S || hasWallAt w x (y - 1) .N
  | .W => hasWallAt w x y .W || hasWallAt w (x - 1) y .E

/-- hasRightWall from pyodide.ts: wall on the robot's right-hand edge. -/
def hasRightWall (w : World) (x y : Int) (dir : Direction) : Bool :=
  match dir with
  | .N => hasWallAt w x y .E || hasWallAt w (x + 1) y .W
  | .E => hasWallAt w x y .S || hasWallAt w x (y - 1) .N
  | .S => hasWallAt w x y .W || hasWallAt w (x - 1) y .E
  | .W => hasWallAt w x y .N || hasWallAt w x (y + 1) .S

/-- decrementObjectOfKindAt from pyodide.ts. -/
def decrementObjectOfKindAt (objs : List ObjStack) (x y : Int) (kind : ObjectKind) :
    List ObjStack :=
  match objs with
  | [] => []
  | o :: rest =>
    if o.x = x ∧ o.y = y ∧ o.kind = kind ∧ o.count > 0 then
      if o.count - 1 = 0 then rest else { o with count := o.count - 1 } :: rest
    else o :: decrementObjectOfKindAt rest x y kind

/-- incrementObjectKindAt from pyodide.ts. -/
def incrementObjectKindAt (objs : List ObjStack) (x y : Int) (kind : ObjectKind) :
    List ObjStack :=
  match objs with
  | [] => [{ x := x, y := y, kind := kind, count := 1 }]
  | o :: rest =>
    if o.x = x ∧ o.y = y ∧ o.kind = kind then { o with count := o.count + 1 } :: rest
    else o :: incrementObjectKindAt rest x y kind

/-- pickKindToTakeAt from pyodide.ts. -/
def pickKindToTakeAt (objs : List ObjStack) (x y : Int) : Option ObjectKind :=
  match stableSort takeBefore
      ((objs.filter fun o => decide (o.x = x ∧ o.y = y)).filter fun o =>
        decide (o.count > 0)) with
  | [] => none
  | o :: _ => some o.kind

/-- The plan-world half of enqueue_action from pyodide.ts: the eager
update applied to the shadow plan world when an action primitive is
issued (the other half, enqueueing on the engine, is queue-only). The
if/else chain falls through doing nothing for types it does not list,
which covers done (listed, no plan change) and trace (never issued). -/
def enqueue_action (w : World) : Action → World
  | .move =>
    let d := deltaFor w.robot.dir
    let nx := w.robot.x + d.1
    let ny := w.robot.y + d.2
    if nx ≥ 1 ∧ ny ≥ 1 ∧ nx ≤ w.width ∧ ny ≤ w.height ∧
        ¬ isBlockedByWall w w.robot.x w.robot.y w.robot.dir then
      { w with robot := { w.robot with x := nx, y := ny } }
    else w
  | .turnLeft => { w with robot := { w.robot with dir := turnLeft w.robot.dir } }
  | .put =>
    match w.robot.inventory with
    | [] => w
    | kind :: restInv =>
      { w with robot := { w.robot with inventory := restInv },
               objects := incrementObjectKindAt w.objects w.robot.x w.robot.y kind }
  | .take =>
    match pickKindToTakeAt w.objects w.robot.x w.robot.y with
    | none => w
    | some kind =>
      { w with objects := decrementObjectOfKindAt w.objects w.robot.x w.robot.y kind,
               robot := { w.robot with inventory := w.robot.inventory ++ [kind] } }
  | .buildWall =>
    if w.walls.any fun r =>
        decide (r.x = w.robot.x ∧ r.y = w.robot.y ∧ r.dir = w.robot.dir) then w
    else
      { w with walls :=
          w.walls ++ [{ x := w.robot.x, y := w.robot.y, dir := w.robot.dir }] }
  | .done => w
  | .trace _ => w

/-- set_pace from pyodide.ts: stores ms*5 when that is finite and
nonnegative, else 10 (Int model: finiteness is automatic). Returns the
new paceMs value. -/
def set_pace (ms : Int) : Int :=
  let n := ms * 5
  if 0 ≤ n then n else 10

/-- getPaceMs from pyodide.ts: returns the stored paceMs. -/
def getPaceMs (paceMs : Int) : Int :=
  paceMs

/-- at_goal from pyodide.ts: true iff the queried world's goal has a
position whose (finite, floored) coordinates equal the robot's. The
trace enqueue side effect is queue-only and not part of the result. -/
def at_goal (w : World) : Bool :=
  match w.goal with
  | none => false
  | some g =>
    match g.position with
    | none => false
    | some p => decide (w.robot.x = p.x ∧ w.robot.y = p.y)

end Py

/-! ## Goal evaluator and orientation parsing (goal module) -/

/-- JS String.prototype.trim on the character list: strip leading and
trailing whitespace. -/
def trimChars (cs : List Char) : List Char :=
  ((cs.dropWhile Char.isWhitespace).reverse.dropWhile Char.isWhitespace).reverse

/-- JS String.prototype.trim. -/
def jsTrim (s : String) : String :=
  String.mk (trimChars s.data)

/-- JS String.prototype.toUpperCase (ASCII, enough for the codes used). -/
def jsToUpper (s : String) : String :=
  String.mk (s.data.map Char.toUpper)

/-- JS String.prototype.toLowerCase (ASCII, enough for the codes used). -/
def jsToLower (s : String) : String :=
  String.mk (s.data.map Char.toLower)

/-- Numeric orientation code mapping shared by parseDir and the loader:
1 is N, 2 is W, 3 is S, anything else E. -/
def numCodeToDir (n : Int) : Direction :=
  if n = 1 then .N else if n = 2 then .W else if n = 3 then .S else .E

/-- parseDir from the goal module: textual codes N/NORTH etc. after
trim+uppercase; numbers through the shared switch; otherwise none. -/
def parseDir : OrientVal → Option Direction
  | .str s =>
    let u := jsToUpper (jsTrim s)
    if u = "N" ∨ u = "NORTH" then some .N
    else if u = "E" ∨ u = "EAST" then some .E
    else if u = "S" ∨ u = "SOUTH" then some .S
    else if u = "W" ∨ u = "WEST" then some .W
    else none
  | .num n => some (numCodeToDir n)

/-- The leading-digits value of a character list, as used by parseInt. -/
def digitsVal (cs : List Char) : Option Nat :=
  let ds := cs.takeWhile Char.isDigit
  if ds.isEmpty then none
  else some (ds.foldl (fun a c => a * 10 + (c.toNat - 48)) 0)

/-- JS parseInt(s, 10): optional sign then leading decimal digits; none
models NaN. (Leading whitespace is already trimmed by the caller.) -/
def jsParseInt (s : String) : Option Int :=
  match s.toList with
  | '-' :: rest => (digitsVal rest).map fun n => -(n : Int)
  | '+' :: rest => (digitsVal rest).map fun n => (n : Int)
  | cs => (digitsVal cs).map fun n => (n : Int)

/-- mapOrientationToDir from the world loader: textual codes first, then
a parseInt fallback feeding the shared numeric switch, defaulting to E
(also for an absent orientation). -/
def mapOrientationToDir : Option OrientVal → Direction
  | none => .E
  | some (.str s) =>
    let u := jsToUpper (jsTrim s)
    if u = "N" ∨ u = "NORTH" then .N
    else if u = "E" ∨ u = "EAST" then .E
    else if u = "S" ∨ u = "SOUTH" then .S
    else if u = "W" ∨ u = "WEST" then .W
    else
      match jsParseInt u with
      | some n => numCodeToDir n
      | none => .E
  | some (.num n) => numCodeToDir n

/-- mapWallTextToDir from the goal module. -/
def mapWallTextToDir : WallText → Direction
  | .north => .N
  | .east => .E
  | .south => .S
  | .west => .W

/-- Observed count used by buildObservedSnapshot: total count of the
kind at a coordinate over entries with positive count. -/
def observedCountAt (objs : List ObjStack) (c : Int × Int) (k : ObjectKind) : Int :=
  ((objs.filter fun o =>
    decide (o.count > 0 ∧ o.x = c.1 ∧ o.y = c.2 ∧ o.kind = k)).map (fun o => o.count)).sum

/-- Whether the observed snapshot lists the kind at the coordinate. -/
def observedKindAt (objs : List ObjStack) (c : Int × Int) (k : ObjectKind) : Bool :=
  objs.any fun o => decide (o.count > 0 ∧ o.x = c.1 ∧ o.y = c.2 ∧ o.kind = k)

/-- Whether the observed snapshot has any entry at the coordinate. -/
def hasPositiveAt (objs : List ObjStack) (c : Int × Int) : Bool :=
  objs.any fun o => decide (o.count > 0 ∧ o.x = c.1 ∧ o.y = c.2)

/-- Grid-wide total by kind from buildExpectedSnapshot (no positivity
filter in the source loop). -/
def totalByKind (objs : List ObjStack) (k : ObjectKind) : Int :=
  ((objs.filter fun o => decide (o.kind = k)).map (fun o => o.count)).sum

/-- Expected count for one goal value, from buildExpectedSnapshot:
numbers as-is; digit strings parsed; "all" is the grid-wide total of
the kind; anything else is impossible (NaN, modelled as none). -/
def expectedVal (objs : List ObjStack) (k : ObjectKind) : GoalVal → Option Int
  | .num n => some n
  | .str s =>
    let v := jsToLower (jsTrim s)
    if ¬ v.toList.isEmpty ∧ v.toList.all Char.isDigit then
      some ((v.toList.foldl (fun a c => a * 10 + (c.toNat - 48)) 0 : Nat) : Int)
    else if v = "all" then some (totalByKind objs k)
    else none

/-- Lookup of a coordinate key in a goal-objects record. -/
def lookupCoord : List ((Int × Int) × List (ObjectKind × GoalVal)) → (Int × Int) →
    Option (List (ObjectKind × GoalVal))
  | [], _ => none
  | e :: rest, c => if e.1 = c then some e.2 else lookupCoord rest c

/-- All object kinds, for quantifying over observed-snapshot keys. -/
def allKinds : List ObjectKind :=
  [.token, .carrot, .apple, .banana, .leaf, .dandelion]

/-- Whether a goal requirement record lists the kind. -/
def reqHasKind (req : List (ObjectKind × GoalVal)) (k : ObjectKind) : Bool :=
  req.any fun kv => decide (kv.1 = k)

/-- The goal.objects clause of evaluateGoal: rule 1, coordinates holding
objects must appear in the goal with a nonempty requirement; rule 2, at
each required coordinate the observed kinds are listed and each listed
kind's observed count equals its (finite) expected count; rule 3,
coordinates required empty hold nothing. -/
def evalObjectsGoal (objs : List ObjStack)
    (gobjs : List ((Int × Int) × List (ObjectKind × GoalVal))) : Bool :=
  (objs.all fun o =>
    if o.count > 0 then
      match lookupCoord gobjs (o.x, o.y) with
      | none => false
      | some req => ¬ req.isEmpty
    else true)
  && (gobjs.all fun e =>
    if e.2.isEmpty then true
    else
      (allKinds.all fun k => !(observedKindAt objs e.1 k) || reqHasKind e.2 k)
      && (e.2.all fun kv =>
        match expectedVal objs kv.1 kv.2 with
        | none => false
        | some need => decide (observedCountAt objs e.1 kv.1 = need)))
  && (gobjs.all fun e => if e.2.isEmpty then !(hasPositiveAt objs e.1) else true)

/-- The goal.walls clause of evaluateGoal: every listed pair must exist. -/
def evalWallsGoal (w : World) (gwalls : List ((Int × Int) × List WallText)) : Bool :=
  gwalls.all fun e => e.2.all fun d => hasWallAt w e.1.1 e.1.2 (mapWallTextToDir d)

/-- The goal.position clause of evaluateGoal: floored coordinates must
match; a parseable orientation must match, an unparseable one is
ignored. -/
def evalPositionGoal (w : World) (p : GoalPos) : Bool :=
  decide (w.robot.x = p.x ∧ w.robot.y = p.y)
  && (match p.orientation with
    | none => true
    | some ov =>
      match parseDir ov with
      | none => true
      | some d => decide (w.robot.dir = d))

/-- The goal.possible_final_positions clause of evaluateGoal: when the
list is nonempty, some entry must match the robot's position (and its
orientation when one is given and parseable). -/
def evalPossibleGoal (w : World) (ps : List (Int × Int × Option OrientVal)) : Bool :=
  if ps.isEmpty then true
  else ps.any fun p =>
    decide (w.robot.x = p.1 ∧ w.robot.y = p.2.1)
    && (match p.2.2 with
      | none => true
      | some ov =>
        match parseDir ov with
        | none => true
        | some d => decide (w.robot.dir = d))

/-- evaluateGoal from the goal module: conjunction of the clauses of the
present goal fields; no goal means satisfied. -/
def evaluateGoal (w : World) (goal : Option Goal) : Bool :=
  match goal with
  | none => true
  | some g =>
    (match g.objects with
      | none => true
      | some go => evalObjectsGoal w.objects go)
    && (match g.walls with
      | none => true
      | some gw => evalWallsGoal w gw)
    && (match g.position with
      | none => true
      | some p => evalPositionGoal w p)
    && (match g.possibleFinalPositions with
      | none => true
      | some ps => evalPossibleGoal w ps)

/-! ## World-builder wall helpers (onload module) -/

/-- removeWall from the onload module: delete every record matching
(x,y,dir), keeping order. -/
def removeWall (walls : List WallSeg) (x y : Int) (dir : Direction) : List WallSeg :=
  walls.filter fun r => !(decide (r.x = x ∧ r.y = y ∧ r.dir = dir))

/-- The neighbor cell and opposite direction across the (x,y,dir) edge,
as computed inside removeWallSymmetric. -/
def wallNeighbor (x y : Int) (dir : Direction) : Int × Int × Direction :=
  match dir with
  | .N => (x, y + 1, .S)
  | .S => (x, y - 1, .N)
  | .E => (x + 1, y, .W)
  | .W => (x - 1, y, .E)

/-- removeWallSymmetric from the onload module: remove the named edge
and the matching opposite edge of the neighbor cell. -/
def removeWallSymmetric (walls : List WallSeg) (x y : Int) (dir : Direction) :
    List WallSeg :=
  let primary := removeWall walls x y dir
  let n := wallNeighbor x y dir
  removeWall primary n.1 n.2.1 n.2.2

/-- RUR.add_wall from the onload module (non-goal path): floor the
coordinates (identity on Int) and push the record unless present. -/
def RUR_add_wall (walls : List WallSeg) (x y : Int) (dir : Direction) : List WallSeg :=
  if walls.any fun r => decide (r.x = x ∧ r.y = y ∧ r.dir = dir) then walls
  else walls ++ [{ x := x, y := y, dir := dir }]

/-- RUR.remove_wall from the onload module: floor the coordinates and
remove symmetrically. -/
def RUR_remove_wall (walls : List WallSeg) (x y : Int) (dir : Direction) :
    List WallSeg :=
  removeWallSymmetric walls x y dir

/-! ## Claim-statement vocabulary

Definitions below formalize wording the claims use to describe the
intended behavior; theorems connect them to the source-derived
definitions above. -/

/-- The destination cell of a move, per the claim's table N:(0,+1),
E:(+1,0), S:(0,-1), W:(-1,0). -/
def destOf (w : World) : Int × Int :=
  match w.robot.dir with
  | .N => (w.robot.x, w.robot.y + 1)
  | .E => (w.robot.x + 1, w.robot.y)
  | .S => (w.robot.x, w.robot.y - 1)
  | .W => (w.robot.x - 1, w.robot.y)

/-- The opposing edge direction across a shared cell boundary. -/
def oppositeDir : Direction → Direction
  | .N => .S
  | .S => .N
  | .E => .W
  | .W => .E

/-- Whether the move destination lies inside the 1-based grid bounds. -/
def inBoundsDest (w : World) : Bool :=
  decide (1 ≤ (destOf w).1 ∧ (destOf w).1 ≤ w.width ∧
    1 ≤ (destOf w).2 ∧ (destOf w).2 ≤ w.height)

/-- Whether neither the source cell's facing edge nor the destination
cell's opposing edge carries a wall. -/
def wallFree (w : World) : Bool :=
  !(hasWallAt w w.robot.x w.robot.y w.robot.dir) &&
    !(hasWallAt w (destOf w).1 (destOf w).2 (oppositeDir w.robot.dir))

/-! ## Helper lemmas -/

/-- The destination cell equals the robot position plus the engine's
deltaFor offset. -/
theorem destOf_eq (w : World) :
    destOf w =
      (w.robot.x + (deltaFor w.robot.dir).1, w.robot.y + (deltaFor w.robot.dir).2) := by
  cases h : w.robot.dir <;> simp [destOf, deltaFor, h, Prod.ext_iff] <;> omega

/-- The engine's wall-blocking test is the disjunction of the two
edge-wall tests at source and destination. -/
theorem isBlockedByWall_eq (w : World) :
    isBlockedByWall w w.robot.x w.robot.y w.robot.dir =
      (hasWallAt w w.robot.x w.robot.y w.robot.dir ||
       hasWallAt w (destOf w).1 (destOf w).2 (oppositeDir w.robot.dir)) := by
  cases h : w.robot.dir <;> simp [isBlockedByWall, destOf, oppositeDir, h]

/-- C1. For every world, the move transition succeeds iff the
destination cell computed from the facing deltas lies inside
[1,width]x[1,height] and no wall sits on the source edge nor on the
destination's opposing edge; failure reasons are out_of_bounds for an
out-of-bounds destination and blocked_by_wall otherwise, and success
moves the robot to the destination with facing unchanged. -/
theorem claim_C1_move (w : World) :
    ((applyAction w Action.move).ok = true ↔ (inBoundsDest w ∧ wallFree w)) ∧
    ((applyAction w Action.move).reason =
      if inBoundsDest w then
        (if wallFree w then none else some "blocked_by_wall")
      else some "out_of_bounds") ∧
    ((applyAction w Action.move).world =
      if inBoundsDest w ∧ wallFree w then
        { w with robot := { w.robot with x := (destOf w).1, y := (destOf w).2 } }
      else w) := by
  have hdest := destOf_eq w
  have hblock := isBlockedByWall_eq w
  have hin : (w.robot.x + (deltaFor w.robot.dir).1 < 1 ∨
      w.robot.y + (deltaFor w.robot.dir).2 < 1 ∨
      w.robot.x + (deltaFor w.robot.dir).1 > w.width ∨
      w.robot.y + (deltaFor w.robot.dir).2 > w.height) ↔ ¬ (inBoundsDest w = true) := by
    rw [inBoundsDest, hdest]
    simp only [decide_eq_true_iff]
    omega
  have hwf : wallFree w = (!(isBlockedByWall w w.robot.x w.robot.y w.robot.dir)) := by
    rw [wallFree, hblock]
    cases hasWallAt w w.robot.x w.robot.y w.robot.dir <;>
      cases hasWallAt w (destOf w).1 (destOf w).2 (oppositeDir w.robot.dir) <;> rfl
  simp only [applyAction]
  by_cases hOOB : (w.robot.x + (deltaFor w.robot.dir).1 < 1 ∨
      w.robot.y + (deltaFor w.robot.dir).2 < 1 ∨
      w.robot.x + (deltaFor w.robot.dir).1 > w.width ∨
      w.robot.y + (deltaFor w.robot.dir).2 > w.height)
  · have hib : ¬ (inBoundsDest w = true) := hin.mp hOOB
    simp [hOOB, hib]
  · have hib : inBoundsDest w = true := by
      by_contra hc
      exact hOOB (hin.mpr hc)
    by_cases hbl : isBlockedByWall w w.robot.x w.robot.y w.robot.dir = true
    · have hwf2 : wallFree w = false := by rw [hwf, hbl]; rfl
      simp [hOOB, hbl, hib, hwf2]
    · have hbl2 : isBlockedByWall w w.robot.x w.robot.y w.robot.dir = false := by
        simp at hbl
        exact hbl
      have hwf2 : wallFree w = true := by rw [hwf, hbl2]; rfl
      simp [hOOB, hbl2, hib, hwf2, hdest]

/-- The bridge's decrement duplicate agrees with the engine's. -/
theorem py_decrement_eq (objs : List ObjStack) (x y : Int) (k : ObjectKind) :
    Py.decrementObjectOfKindAt objs x y k = decrementObjectOfKindAt objs x y k := by
  induction objs with
  | nil => rfl
  | cons o rest ih =>
    simp only [Py.decrementObjectOfKindAt, decrementObjectOfKindAt, ih]

/-- The bridge's increment duplicate agrees with the engine's. -/
theorem py_increment_eq (objs : List ObjStack) (x y : Int) (k : ObjectKind) :
    Py.incrementObjectKindAt objs x y k = incrementObjectKindAt objs x y k := by
  induction objs with
  | nil => rfl
  | cons o rest ih =>
    simp only [Py.incrementObjectKindAt, incrementObjectKindAt, ih]

/-- The bridge's take tie-break duplicate agrees with the engine's. -/
theorem py_pick_eq (objs : List ObjStack) (x y : Int) :
    Py.pickKindToTakeAt objs x y = pickKindToTakeAt objs x y := rfl

/-- C2. For every world and every action primitive the script can issue
(move, turnLeft, take, put, buildWall), the Shadow Synchronizer's
plan-world update in enqueue_action produces exactly the world that the
Action Engine's transition rule produces from an equal world: same
bounds check, same wall-blocking check, same take tie-break, same FIFO
inventory semantics. -/
theorem claim_C2_plan_refines_engine (w : World) (a : Action)
    (h : a = Action.move ∨ a = Action.turnLeft ∨ a = Action.take ∨
      a = Action.put ∨ a = Action.buildWall) :
    Py.enqueue_action w a = (applyAction w a).world := by
  have hb : Py.isBlockedByWall w w.robot.x w.robot.y w.robot.dir =
      isBlockedByWall w w.robot.x w.robot.y w.robot.dir := rfl
  have hpd : Py.deltaFor = deltaFor := rfl
  rcases h with h | h | h | h | h <;> subst h
  · simp only [Py.enqueue_action, applyAction, hb, hpd]
    by_cases h2 : (w.robot.x + (deltaFor w.robot.dir).1 < 1 ∨
        w.robot.y + (deltaFor w.robot.dir).2 < 1 ∨
        w.robot.x + (deltaFor w.robot.dir).1 > w.width ∨
        w.robot.y + (deltaFor w.robot.dir).2 > w.height)
    · have h0 : ¬ (w.robot.x + (deltaFor w.robot.dir).1 ≥ 1 ∧
          w.robot.y + (deltaFor w.robot.dir).2 ≥ 1 ∧
          w.robot.x + (deltaFor w.robot.dir).1 ≤ w.width ∧
          w.robot.y + (deltaFor w.robot.dir).2 ≤ w.height ∧
          ¬ (isBlockedByWall w w.robot.x w.robot.y w.robot.dir = true)) := by
        intro hc
        obtain ⟨c1, c2, c3, c4, _⟩ := hc
        omega
      rw [if_neg h0, if_pos h2]
    · by_cases h3 : isBlockedByWall w w.robot.x w.robot.y w.robot.dir = true
      · have h0 : ¬ (w.robot.x + (deltaFor w.robot.dir).1 ≥ 1 ∧
            w.robot.y + (deltaFor w.robot.dir).2 ≥ 1 ∧
            w.robot.x + (deltaFor w.robot.dir).1 ≤ w.width ∧
            w.robot.y + (deltaFor w.robot.dir).2 ≤ w.height ∧
            ¬ (isBlockedByWall w w.robot.x w.robot.y w.robot.dir = true)) := by
          intro hc
          exact hc.2.2.2.2 h3
        rw [if_neg h0, if_neg h2, if_pos h3]
      · have h0 : (w.robot.x + (deltaFor w.robot.dir).1 ≥ 1 ∧
            w.robot.y + (deltaFor w.robot.dir).2 ≥ 1 ∧
            w.robot.x + (deltaFor w.robot.dir).1 ≤ w.width ∧
            w.robot.y + (deltaFor w.robot.dir).2 ≤ w.height ∧
            ¬ (isBlockedByWall w w.robot.x w.robot.y w.robot.dir = true)) :=
          ⟨by omega, by omega, by omega, by omega, h3⟩
        rw [if_pos h0, if_neg h2, if_neg h3]
  · rfl
  · simp only [Py.enqueue_action, applyAction, py_pick_eq]
    cases hk : pickKindToTakeAt w.objects w.robot.x w.robot.y with
    | none => rfl
    | some k => simp [py_decrement_eq]
  · simp only [Py.enqueue_action, applyAction]
    cases hi : w.robot.inventory with
    | nil => rfl
    | cons k restInv => simp [py_increment_eq]
  · simp only [Py.enqueue_action, applyAction]
    split_ifs <;> rfl

/-- Fixed world used to witness the C2 hypotheses at a concrete input. -/
def w2Sample : World :=
  { width := 3, height := 3,
    robot := { x := 1, y := 1, dir := .E, token := 0, inventory := [] },
    walls := [], objects := [] }

/-- Witness for C2 at a concrete world and the move primitive. -/
theorem claim_C2_plan_refines_engine_witness :
    Py.enqueue_action w2Sample Action.move = (applyAction w2Sample Action.move).world :=
  claim_C2_plan_refines_engine w2Sample Action.move (Or.inl rfl)

/-- Failed transitions leave the world unchanged, set a reason, and
only arise for non-done actions. -/
theorem applyAction_fail (w : World) (a : Action)
    (h : (applyAction w a).ok = false) :
    (applyAction w a).world = w ∧ (applyAction w a).reason ≠ none ∧
      a ≠ Action.done := by
  cases a with
  | move =>
    simp only [applyAction] at h ⊢
    split_ifs at h ⊢ <;> simp_all
  | take =>
    simp only [applyAction] at h ⊢
    cases hk : pickKindToTakeAt w.objects w.robot.x w.robot.y <;> simp_all
  | put =>
    simp only [applyAction] at h ⊢
    cases hi : w.robot.inventory <;> simp_all
  | turnLeft => simp [applyAction] at h
  | buildWall =>
    simp only [applyAction] at h
    split_ifs at h
  | done => simp [applyAction] at h
  | trace m => simp [applyAction] at h

/-- C3. For every engine state whose queue head fails its transition,
step() returns an event with ok false, the failure reason and no after
snapshot; the committed world is bit-for-bit unchanged, the failed
action is consumed from the queue and not re-enqueued, and the engine
(a total function here, so it never throws) keeps accepting step calls. -/
theorem claim_C3_failed_step (s : EngineState) (a : Action) (rest : List Action)
    (hq : s.queue = a :: rest) (hfail : (applyAction s.world a).ok = false) :
    (applyAction s.world a).world = s.world ∧
    (applyAction s.world a).reason ≠ none ∧
    step s =
      (some { step := s.stepCounter + 1, action := a, before := s.world,
              after := none, ok := false, reason := (applyAction s.world a).reason },
        { world := s.world, queue := rest, stepCounter := s.stepCounter + 1,
          executed :=
            { step := s.stepCounter + 1, action := a, before := s.world,
              after := none, ok := false,
              reason := (applyAction s.world a).reason } :: s.executed }) := by
  obtain ⟨hw, hr, hd⟩ := applyAction_fail s.world a hfail
  refine ⟨hw, hr, ?_⟩
  simp [step, hq, hfail, hw, hd]

/-- Fixed 1x1 world whose robot faces E, so a move runs out of bounds. -/
def w3Sample : World :=
  { width := 1, height := 1,
    robot := { x := 1, y := 1, dir := .E, token := 0, inventory := [] },
    walls := [], objects := [] }

/-- Fixed engine state whose queued move fails. -/
def s3Sample : EngineState :=
  { world := w3Sample, queue := [Action.move], stepCounter := 0, executed := [] }

/-- Witness for C3 at a concrete failing state. -/
theorem claim_C3_failed_step_witness :
    (applyAction s3Sample.world Action.move).world = s3Sample.world :=
  (claim_C3_failed_step s3Sample Action.move [] rfl (by decide)).1

/-- C4. stepPrev with nonempty history restores the committed world to
the most recent event's before snapshot, re-inserts that event's action
at the front of the pending queue and floor-decrements the counter;
with empty history it returns nothing and changes nothing. -/
theorem claim_C4_stepPrev :
    (∀ (s : EngineState) (ev : TraceEvent) (rest : List TraceEvent),
      s.executed = ev :: rest →
      stepPrev s = (some ev.before,
        { world := ev.before, queue := ev.action :: s.queue,
          stepCounter := max 0 (s.stepCounter - 1), executed := rest })) ∧
    (∀ s : EngineState, s.executed = [] → stepPrev s = (none, s)) := by
  constructor
  · intro s ev rest h
    simp [stepPrev, h]
  · intro s h
    simp [stepPrev, h]

/-- Fixed world for the C4 witness. -/
def w4Sample : World :=
  { width := 2, height := 2,
    robot := { x := 1, y := 1, dir := .N, token := 0, inventory := [] },
    walls := [], objects := [] }

/-- Fixed executed event for the C4 witness. -/
def ev4Sample : TraceEvent :=
  { step := 1, action := Action.move, before := w4Sample, after := none,
    ok := false, reason := some "out_of_bounds" }

/-- Fixed engine state with one executed event for the C4 witness. -/
def s4Sample : EngineState :=
  { world := w4Sample, queue := [], stepCounter := 1, executed := [ev4Sample] }

/-- Witness for C4 at a concrete state with one executed event. -/
theorem claim_C4_stepPrev_witness :
    stepPrev s4Sample = (some ev4Sample.before,
      { world := ev4Sample.before, queue := ev4Sample.action :: s4Sample.queue,
        stepCounter := max 0 (s4Sample.stepCounter - 1), executed := [] }) :=
  claim_C4_stepPrev.1 s4Sample ev4Sample [] rfl

/-- Total recorded count of a kind at a coordinate (claim vocabulary
for the object stack of a kind at a cell). -/
def stackCount (objs : List ObjStack) (x y : Int) (k : ObjectKind) : Int :=
  ((objs.filter fun o => decide (o.x = x ∧ o.y = y ∧ o.kind = k)).map
    (fun o => o.count)).sum

/-- Membership is preserved by sorted insertion. -/
theorem mem_sortedInsert {lt : α → α → Bool} {x a : α} {l : List α} :
    a ∈ sortedInsert lt x l ↔ a = x ∨ a ∈ l := by
  induction l with
  | nil => simp [sortedInsert]
  | cons y ys ih =>
    simp only [sortedInsert]
    by_cases h : lt x y
    · rw [if_pos h]
      simp only [List.mem_cons]
    · rw [if_neg h]
      simp only [List.mem_cons, ih]
      tauto

/-- Membership is preserved by the stable sort. -/
theorem mem_stableSort {lt : α → α → Bool} {a : α} {l : List α} :
    a ∈ stableSort lt l ↔ a ∈ l := by
  suffices h : ∀ acc : List α,
      (a ∈ l.foldl (fun acc x => sortedInsert lt x acc) acc ↔ a ∈ acc ∨ a ∈ l) by
    simpa [stableSort] using h []
  intro acc
  induction l generalizing acc with
  | nil => simp
  | cons x xs ih =>
    simp only [List.foldl_cons, ih, mem_sortedInsert, List.mem_cons]
    tauto

/-- A successful pick names a kind with a positive stack at the cell. -/
theorem pickKind_exists {objs : List ObjStack} {x y : Int} {k : ObjectKind}
    (h : pickKindToTakeAt objs x y = some k) :
    ∃ o ∈ objs, o.x = x ∧ o.y = y ∧ o.kind = k ∧ o.count > 0 := by
  unfold pickKindToTakeAt at h
  cases hs : stableSort takeBefore
      ((objs.filter fun o => decide (o.x = x ∧ o.y = y)).filter fun o =>
        decide (o.count > 0)) with
  | nil =>
    rw [hs] at h
    exact absurd h (by simp)
  | cons o rest =>
    rw [hs] at h
    simp only [Option.some.injEq] at h
    have hmem : o ∈ stableSort takeBefore
        ((objs.filter fun o => decide (o.x = x ∧ o.y = y)).filter fun o =>
          decide (o.count > 0)) := by
      rw [hs]
      exact List.mem_cons_self o rest
    rw [mem_stableSort] at hmem
    simp only [List.mem_filter, decide_eq_true_eq] at hmem
    exact ⟨o, hmem.1.1, hmem.1.2.1, hmem.1.2.2, h, hmem.2⟩

/-- Putting a kind raises its stack count at the cell by one. -/
theorem stackCount_increment (objs : List ObjStack) (x y : Int) (k : ObjectKind) :
    stackCount (incrementObjectKindAt objs x y k) x y k =
      stackCount objs x y k + 1 := by
  induction objs with
  | nil => simp [incrementObjectKindAt, stackCount]
  | cons o rest ih =>
    simp only [incrementObjectKindAt]
    by_cases h : (o.x = x ∧ o.y = y ∧ o.kind = k)
    · rw [if_pos h]
      simp only [stackCount, List.filter_cons] at ih ⊢
      simp [h]
      omega
    · rw [if_neg h]
      simp only [stackCount, List.filter_cons] at ih ⊢
      simp only [decide_eq_true_eq]
      rw [if_neg h, if_neg h]
      exact ih

/-- Taking a kind with a positive stack at the cell lowers its stack
count by one. -/
theorem stackCount_decrement (objs : List ObjStack) (x y : Int) (k : ObjectKind)
    (h : ∃ o ∈ objs, o.x = x ∧ o.y = y ∧ o.kind = k ∧ o.count > 0) :
    stackCount (decrementObjectOfKindAt objs x y k) x y k =
      stackCount objs x y k - 1 := by
  induction objs with
  | nil => simp at h
  | cons o rest ih =>
    simp only [decrementObjectOfKindAt]
    by_cases hm : (o.x = x ∧ o.y = y ∧ o.kind = k ∧ o.count > 0)
    · rw [if_pos hm]
      by_cases hz : o.count - 1 = 0
      · rw [if_pos hz]
        simp only [stackCount, List.filter_cons, decide_eq_true_eq]
        rw [if_pos ⟨hm.1, hm.2.1, hm.2.2.1⟩]
        simp
        omega
      · rw [if_neg hz]
        simp only [stackCount, List.filter_cons, decide_eq_true_eq]
        rw [if_pos ⟨hm.1, hm.2.1, hm.2.2.1⟩, if_pos ⟨hm.1, hm.2.1, hm.2.2.1⟩]
        simp
        omega
    · rw [if_neg hm]
      have h2 : ∃ o2 ∈ rest, o2.x = x ∧ o2.y = y ∧ o2.kind = k ∧ o2.count > 0 := by
        rcases h with ⟨o2, hmem, hp⟩
        rcases List.mem_cons.mp hmem with he | hr
        · exact absurd (he ▸ hp) hm
        · exact ⟨o2, hr, hp⟩
      by_cases hp : (o.x = x ∧ o.y = y ∧ o.kind = k)
      · simp only [stackCount, List.filter_cons, decide_eq_true_eq]
        rw [if_pos hp, if_pos hp]
        simp only [List.map_cons, List.sum_cons]
        have := ih h2
        simp only [stackCount] at this
        omega
      · simp only [stackCount, List.filter_cons, decide_eq_true_eq]
        rw [if_neg hp, if_neg hp]
        exact ih h2

/-- Fixed world for the C5 counterexample: the robot already carries a
token and stands on a stack of two carrots. -/
def w5Counter : World :=
  { width := 5, height := 5,
    robot := { x := 1, y := 1, dir := .E, token := 0, inventory := [.token] },
    walls := [], objects := [{ x := 1, y := 1, kind := .carrot, count := 2 }] }

/-- C5 counterexample. With a nonempty prior inventory, a successful
take followed immediately by put does not restore the taken kind's
stack count: put drops the oldest inventory item (FIFO), here the
token, so the carrot stack stays decremented. -/
theorem claim_C5_counterexample :
    (applyAction w5Counter Action.take).ok = true ∧
    pickKindToTakeAt w5Counter.objects w5Counter.robot.x w5Counter.robot.y =
      some ObjectKind.carrot ∧
    stackCount
        ((applyAction (applyAction w5Counter Action.take).world Action.put).world).objects
        1 1 ObjectKind.carrot ≠
      stackCount w5Counter.objects 1 1 ObjectKind.carrot := by
  decide

/-- C5 (amended). If the robot's inventory is empty before the take,
then a successful take followed immediately by put restores the taken
kind's stack count at the robot's cell to its pre-take value. -/
theorem claim_C5_take_put_restores (w : World) (k : ObjectKind)
    (hinv : w.robot.inventory = [])
    (hpick : pickKindToTakeAt w.objects w.robot.x w.robot.y = some k) :
    stackCount
        ((applyAction (applyAction w Action.take).world Action.put).world).objects
        w.robot.x w.robot.y k =
      stackCount w.objects w.robot.x w.robot.y k := by
  have hex := pickKind_exists hpick
  simp only [applyAction, hpick, hinv, List.nil_append]
  rw [stackCount_increment, stackCount_decrement w.objects w.robot.x w.robot.y k hex]
  omega

/-- Fixed world for the C5 witness: empty inventory, two carrots. -/
def w5Sample : World :=
  { width := 5, height := 5,
    robot := { x := 1, y := 1, dir := .E, token := 0, inventory := [] },
    walls := [], objects := [{ x := 1, y := 1, kind := .carrot, count := 2 }] }

/-- Witness for the amended C5 at a concrete world. -/
theorem claim_C5_take_put_restores_witness :
    stackCount
        ((applyAction (applyAction w5Sample Action.take).world Action.put).world).objects
        w5Sample.robot.x w5Sample.robot.y ObjectKind.carrot =
      stackCount w5Sample.objects w5Sample.robot.x w5Sample.robot.y ObjectKind.carrot :=
  claim_C5_take_put_restores w5Sample ObjectKind.carrot rfl (by decide)

/-- The goal literal of claim C6: require "all" carrots at (5,5). -/
def goal6 : Goal :=
  { objects := some [((5, 5), [(ObjectKind.carrot, GoalVal.str "all")])],
    walls := none, position := none, possibleFinalPositions := none }

/-- Fixed world for the C6 counterexample: the single carrot sits at
(5,5) but a token sits at (1,1). -/
def w6Counter : World :=
  { width := 10, height := 10,
    robot := { x := 1, y := 1, dir := .E, token := 0, inventory := [] },
    walls := [],
    objects := [{ x := 5, y := 5, kind := .carrot, count := 1 },
                { x := 1, y := 1, kind := .token, count := 1 }] }

/-- C6 counterexample. Every carrot on the grid is at (5,5), yet the
goal is not satisfied: a non-carrot object at another coordinate also
violates the goal's objects clause. -/
theorem claim_C6_counterexample :
    (w6Counter.objects.all fun o =>
      !(decide (o.kind = ObjectKind.carrot)) || decide (o.x = 5 ∧ o.y = 5)) = true ∧
    evaluateGoal w6Counter (some goal6) = false := by
  decide

/-- Every object kind is in the enumeration list. -/
theorem mem_allKinds (k : ObjectKind) : k ∈ allKinds := by
  cases k <;> simp [allKinds]

/-- C6 (amended). For worlds whose object stacks all have positive
count (the documented stack invariant), the goal requiring "all"
carrots at (5,5) is satisfied iff every object stack on the grid is a
carrot located at (5,5) — every carrot is at (5,5) and no other kind
exists anywhere. -/
theorem claim_C6_goal_all_carrots (w : World)
    (hpos : ∀ o ∈ w.objects, 0 < o.count) :
    evaluateGoal w (some goal6) = true ↔
      ∀ o ∈ w.objects, o.kind = ObjectKind.carrot ∧ o.x = 5 ∧ o.y = 5 := by
  have hgoal : evaluateGoal w (some goal6) =
      evalObjectsGoal w.objects [((5, 5), [(ObjectKind.carrot, GoalVal.str "all")])] := by
    simp [evaluateGoal, goal6]
  rw [hgoal]
  constructor
  · intro h o hmem
    simp only [evalObjectsGoal, Bool.and_eq_true, List.all_eq_true] at h
    obtain ⟨⟨h1, h2⟩, _⟩ := h
    have hc := hpos o hmem
    have h1o := h1 o hmem
    rw [if_pos hc] at h1o
    by_cases hxy : ((5 : Int), (5 : Int)) = (o.x, o.y)
    · have hx : o.x = 5 := (Prod.ext_iff.mp hxy).1.symm
      have hy : o.y = 5 := (Prod.ext_iff.mp hxy).2.symm
      have h2e := h2 ((5, 5), [(ObjectKind.carrot, GoalVal.str "all")])
        (List.mem_singleton.mpr rfl)
      rw [List.isEmpty_cons, if_neg Bool.false_ne_true] at h2e
      simp only [Bool.and_eq_true, List.all_eq_true] at h2e
      obtain ⟨hkinds, _⟩ := h2e
      have hko := hkinds o.kind (mem_allKinds o.kind)
      have hobs : observedKindAt w.objects (5, 5) o.kind = true := by
        simp only [observedKindAt, List.any_eq_true, decide_eq_true_eq]
        exact ⟨o, hmem, hc, hx, hy, rfl⟩
      rw [hobs] at hko
      simp only [Bool.not_true, Bool.false_or, reqHasKind, List.any_eq_true,
        decide_eq_true_eq] at hko
      obtain ⟨kv, hkv, hkeq⟩ := hko
      simp only [List.mem_singleton] at hkv
      subst hkv
      exact ⟨hkeq.symm, hx, hy⟩
    · exfalso
      simp only [lookupCoord, if_neg hxy] at h1o
      exact Bool.false_ne_true h1o
  · intro hall
    simp only [evalObjectsGoal, Bool.and_eq_true, List.all_eq_true]
    refine ⟨⟨?_, ?_⟩, ?_⟩
    · intro o hmem
      obtain ⟨hk, hx, hy⟩ := hall o hmem
      have hc := hpos o hmem
      rw [if_pos hc]
      simp [lookupCoord, hx, hy]
    · intro e hmem
      simp only [List.mem_singleton] at hmem
      subst hmem
      rw [List.isEmpty_cons, if_neg Bool.false_ne_true, Bool.and_eq_true]
      constructor
      · rw [List.all_eq_true]
        intro k _
        by_cases hobs : observedKindAt w.objects (5, 5) k = true
        · have hk : k = ObjectKind.carrot := by
            simp only [observedKindAt, List.any_eq_true, decide_eq_true_eq] at hobs
            obtain ⟨o, hmem, _, _, _, hko⟩ := hobs
            exact hko ▸ (hall o hmem).1
          subst hk
          simp [reqHasKind]
        · simp only [Bool.not_eq_true] at hobs
          simp [hobs]
      · rw [List.all_eq_true]
        intro kv hkv
        simp only [List.mem_singleton] at hkv
        subst hkv
        have htrim : jsToLower (jsTrim "all") = "all" := by decide
        have hev : expectedVal w.objects ObjectKind.carrot (GoalVal.str "all") =
            some (totalByKind w.objects ObjectKind.carrot) := by
          simp only [expectedVal]
          rw [htrim, if_neg (by decide), if_pos rfl]
        rw [hev]
        simp only [decide_eq_true_eq]
        have hf1 : w.objects.filter (fun o =>
            decide (o.count > 0 ∧ o.x = (5 : Int) ∧ o.y = (5 : Int) ∧
              o.kind = ObjectKind.carrot)) = w.objects := by
          rw [List.filter_eq_self]
          intro o hmem
          obtain ⟨hk, hx, hy⟩ := hall o hmem
          simp [hpos o hmem, hk, hx, hy]
        have hf2 : w.objects.filter (fun o => decide (o.kind = ObjectKind.carrot)) =
            w.objects := by
          rw [List.filter_eq_self]
          intro o hmem
          simp [(hall o hmem).1]
        simp only [observedCountAt, totalByKind, hf1, hf2]
    · intro e hmem
      simp only [List.mem_singleton] at hmem
      subst hmem
      simp

/-- Fixed world for the C6 witness: two carrots at (5,5) only. -/
def w6Sample : World :=
  { width := 10, height := 10,
    robot := { x := 1, y := 1, dir := .E, token := 0, inventory := [] },
    walls := [],
    objects := [{ x := 5, y := 5, kind := .carrot, count := 2 }] }

/-- Witness for the amended C6 at a concrete world. -/
theorem claim_C6_goal_all_carrots_witness :
    evaluateGoal w6Sample (some goal6) = true :=
  (claim_C6_goal_all_carrots w6Sample (by decide)).mpr (by decide)

/-- Membership after RUR.add_wall: exactly the old records plus the
declared edge. -/
theorem mem_add_wall (walls : List WallSeg) (x y : Int) (d : Direction) (r : WallSeg) :
    r ∈ RUR_add_wall walls x y d ↔ (r ∈ walls ∨ r = ⟨x, y, d⟩) := by
  simp only [RUR_add_wall]
  split_ifs with h
  · constructor
    · intro hr
      exact Or.inl hr
    · intro hr
      rcases hr with hr | hr
      · exact hr
      · simp only [List.any_eq_true, decide_eq_true_eq] at h
        obtain ⟨r0, hr0, hx, hy, hd⟩ := h
        have he : r0 = (⟨x, y, d⟩ : WallSeg) := by
          cases r0
          simp_all
        subst hr
        exact he ▸ hr0
  · simp [List.mem_append]

/-- The engine's buildWall updates walls exactly like the builder's
add_wall at the robot's cell and facing. -/
theorem buildWall_walls_eq (w : World) :
    (applyAction w Action.buildWall).world.walls =
      RUR_add_wall w.walls w.robot.x w.robot.y w.robot.dir := by
  simp only [applyAction, RUR_add_wall]
  split_ifs <;> rfl

/-- The neighbor's opposing edge record is never the declared edge. -/
theorem wallNeighbor_ne (x y : Int) (d : Direction) :
    (⟨(wallNeighbor x y d).1, (wallNeighbor x y d).2.1,
      (wallNeighbor x y d).2.2⟩ : WallSeg) ≠ ⟨x, y, d⟩ := by
  cases d <;> simp [wallNeighbor]

/-- C7. Wall insertion is one-sided while removal is symmetric: adding a
wall (engine buildWall, builder add_wall) inserts only the declared
(x,y,dir) edge and never touches the neighbor's opposing edge, while
remove_wall deletes both the named edge and the neighbor's matching
opposite edge, leaving every other wall record untouched. -/
theorem claim_C7_wall_asymmetry (walls : List WallSeg) (x y : Int) (d : Direction)
    (w : World) :
    (∀ r : WallSeg, r ∈ RUR_add_wall walls x y d ↔ (r ∈ walls ∨ r = ⟨x, y, d⟩)) ∧
    ((⟨(wallNeighbor x y d).1, (wallNeighbor x y d).2.1,
        (wallNeighbor x y d).2.2⟩ : WallSeg) ∈ RUR_add_wall walls x y d ↔
      (⟨(wallNeighbor x y d).1, (wallNeighbor x y d).2.1,
        (wallNeighbor x y d).2.2⟩ : WallSeg) ∈ walls) ∧
    (∀ r : WallSeg, r ∈ (applyAction w Action.buildWall).world.walls ↔
      (r ∈ w.walls ∨ r = ⟨w.robot.x, w.robot.y, w.robot.dir⟩)) ∧
    (∀ r : WallSeg, r ∈ RUR_remove_wall walls x y d ↔
      (r ∈ walls ∧ r ≠ ⟨x, y, d⟩ ∧
        r ≠ ⟨(wallNeighbor x y d).1, (wallNeighbor x y d).2.1,
          (wallNeighbor x y d).2.2⟩)) := by
  refine ⟨mem_add_wall walls x y d, ?_, ?_, ?_⟩
  · rw [mem_add_wall]
    simp [wallNeighbor_ne x y d]
  · intro r
    rw [buildWall_walls_eq]
    exact mem_add_wall w.walls w.robot.x w.robot.y w.robot.dir r
  · intro r
    simp only [RUR_remove_wall, removeWallSymmetric, removeWall, List.mem_filter,
      Bool.not_eq_true', decide_eq_false_iff_not]
    constructor
    · rintro ⟨⟨hm, hp⟩, hn⟩
      refine ⟨hm, ?_, ?_⟩
      · intro he
        apply hp
        rw [he]
        exact ⟨rfl, rfl, rfl⟩
      · intro he
        apply hn
        rw [he]
        exact ⟨rfl, rfl, rfl⟩
    · rintro ⟨hm, h1, h2⟩
      refine ⟨⟨hm, ?_⟩, ?_⟩
      · intro hc
        apply h1
        cases r
        simp_all
      · intro hc
        apply h2
        cases r
        simp_all

/-- C8 counterexample. On the numeric-string input "1" the loader's
mapOrientationToDir yields N (via its parseInt fallback) while the Goal
Evaluator's parseDir yields nothing, so the two normalizations do not
agree on every input on which either is defined. -/
theorem claim_C8_counterexample :
    mapOrientationToDir (some (OrientVal.str "1")) = Direction.N ∧
    parseDir (OrientVal.str "1") = none := by
  decide

/-- C8 (amended). On every orientation code on which both normalizers
are defined — equivalently, wherever parseDir yields a direction — the
loader's mapOrientationToDir yields the same direction, so such goal
orientations and initial robot orientations denote the same facing. -/
theorem claim_C8_orientation_agree (v : OrientVal) (d : Direction)
    (h : parseDir v = some d) :
    mapOrientationToDir (some v) = d := by
  cases v with
  | num n =>
    simp only [parseDir, Option.some.injEq] at h
    simp only [mapOrientationToDir]
    exact h
  | str s =>
    simp only [parseDir] at h
    simp only [mapOrientationToDir]
    split_ifs at h ⊢ <;> simp_all

/-- Witness for the amended C8 at a concrete textual code. -/
theorem claim_C8_orientation_agree_witness :
    mapOrientationToDir (some (OrientVal.str "north")) = Direction.N :=
  claim_C8_orientation_agree (OrientVal.str "north") Direction.N (by decide)

/-- C9. think(ms)/set_pace stores five times the requested value when
ms*5 is nonnegative (finiteness is automatic over Int) and 10
otherwise; getPaceMs reports that stored value, never ms itself. -/
theorem claim_C9_set_pace (ms : Int) :
    Py.getPaceMs (Py.set_pace ms) = if 0 ≤ ms * 5 then 5 * ms else 10 := by
  simp only [Py.set_pace, Py.getPaceMs]
  split_ifs with h
  · exact Int.mul_comm ms 5
  · rfl

/-- Empty goal used by the C10 existence part. -/
def goal10 : Goal :=
  { objects := none, walls := none, position := none,
    possibleFinalPositions := none }

/-- World whose goal is present but has no position field. -/
def w10Sample : World :=
  { width := 1, height := 1,
    robot := { x := 1, y := 1, dir := .E, token := 0, inventory := [] },
    walls := [], objects := [], goal := some goal10 }

/-- C10. The at_goal sensor is exactly the goal.position coordinate
test: true iff the goal carries a position whose coordinates equal the
robot's; it ignores goal objects, walls, possible final positions and
the position's orientation, and worlds exist where evaluateGoal holds
while at_goal is false because goal.position is absent. -/
theorem claim_C10_at_goal :
    (∀ w : World, (Py.at_goal w = true ↔
      ∃ g p, w.goal = some g ∧ g.position = some p ∧
        w.robot.x = p.x ∧ w.robot.y = p.y)) ∧
    (∃ w : World, evaluateGoal w w.goal = true ∧ Py.at_goal w = false) := by
  constructor
  · intro w
    cases hg : w.goal with
    | none => simp [Py.at_goal, hg]
    | some g =>
      cases hp : g.position with
      | none => simp [Py.at_goal, hg, hp]
      | some p => simp [Py.at_goal, hg, hp]
  · exact ⟨w10Sample, by decide, by decide⟩

end Reeborg
